import Mathlib

set_option maxHeartbeats 1000000

/-! Verification development for the virtualized list widget
(src/widget/list.go).  The Go code is shallowly embedded: machine
float32 heights and offsets become rationals, the Go map
`itemHeights : map[ListItemID]float32` becomes an association list
(lookup takes the first match; insertion replaces), and the stateful
widget methods become pure state-passing functions that also return the
ordered trace of external effects (refresh requests and the
OnSelected / OnUnselected callback invocations). -/

/-- State of the List widget and the theme values it reads.
Fields mirror the Go struct List together with the scroller geometry and
the injected theme constants.  The field hasCreate records whether the
CreateItem callback is set; selected mirrors the Go slice l.selected. -/
structure ListW where
  length : Nat
  itemMin : ℚ
  itemHeights : List (ℤ × ℚ)
  offsetY : ℚ
  scrollH : ℚ
  width : ℚ
  padding : ℚ
  sepThickness : ℚ
  hasCreate : Bool
  selected : List ℤ
deriving DecidableEq

/-- Height of row i: the override from the itemHeights map when present,
otherwise the supplied uniform item height (the Go pattern
h, ok := l.itemHeights[i]). -/
def rowH (s : ListW) (itemHeight : ℚ) (i : ℤ) : ℚ :=
  (s.itemHeights.lookup i).getD itemHeight

/-- Cumulative y position of the top of row n: the sum of the heights of
rows 0..n-1 plus one separator padding after each.  This is rowOffset in
visibleItemHeights and the accumulation loop of scrollTo. -/
def cumY (s : ListW) (itemHeight : ℚ) : Nat → ℚ
  | 0 => 0
  | n + 1 => cumY s itemHeight n + rowH s itemHeight (n : ℤ) + s.padding

/-- The sparse-height scan of visibleItemHeights (the for-loop over all
rows in src/widget/list.go lines 294-315), with the mutable Go locals
rowOffset, isVisible, minRow, offY, visible passed explicitly. -/
def visibleLoop (s : ListW) (itemHeight : ℚ) (length : Nat) (i : Nat)
    (rowOffset : ℚ) (isVisible : Bool) (minRow : ℤ) (offY : ℚ)
    (visible : List ℚ) : List ℚ × ℚ × ℤ :=
  if _h : i < length then
    let height := (s.itemHeights.lookup (i : ℤ)).getD itemHeight
    let st1 : ℤ × ℚ × Bool :=
      if rowOffset ≤ s.offsetY - height - s.padding then
        (minRow, offY, isVisible)
      else if rowOffset ≤ s.offsetY then
        ((i : ℤ), rowOffset, true)
      else
        (minRow, offY, isVisible)
    if s.offsetY + s.scrollH ≤ rowOffset then
      (visible, st1.2.1, st1.1)
    else
      visibleLoop s itemHeight length (i + 1)
        (rowOffset + height + s.padding) st1.2.2 st1.1 st1.2.1
        (if st1.2.2 then visible ++ [height] else visible)
  else
    (visible, offY, minRow)
termination_by length - i

/-- visibleItemHeights (src/widget/list.go lines 256-317): returns the
heights of the visible rows, the pixel offset of the first visible row,
and the index of the first visible row.  The uniform fast path snaps the
scroll offset down to a stride multiple before computing the row range.
The Go code builds the slice with make, which would panic on a negative
count (only reachable with a negative scroll offset); the embedding
takes Int.toNat there. -/
def visibleItemHeights (s : ListW) (itemHeight : ℚ) (length : Nat) :
    List ℚ × ℚ × ℤ :=
  if s.scrollH ≤ 0 then ([], 0, 0)
  else if s.itemHeights = [] then
    let ph := itemHeight + s.padding
    let offY0 : ℚ := (⌊s.offsetY / ph⌋ : ℤ) * ph
    let minRow0 : ℤ := ⌊offY0 / ph⌋
    let maxRow0 : ℤ := ⌈(offY0 + s.scrollH) / ph⌉
    let minRow1 : ℤ := if (length : ℤ) - 1 < minRow0 then (length : ℤ) - 1 else minRow0
    let p2 : ℤ × ℚ := if minRow1 < 0 then (0, 0) else (minRow1, offY0)
    let maxRow1 : ℤ := if (length : ℤ) < maxRow0 then (length : ℤ) else maxRow0
    (List.replicate (maxRow1 - p2.1).toNat itemHeight, p2.2, p2.1)
  else
    visibleLoop s itemHeight length 0 0 false 0 0 []

/-- The target y position and clamped offset of scrollTo
(src/widget/list.go lines 120-148).  The accumulation loop over rows
0..id-1 is exactly cumY; the uniform branch multiplies out.  Note the
code bounds the target row by l.itemMin.Height, not by its override. -/
def scrollToOffset (s : ListW) (id : ℤ) : ℚ :=
  let y : ℚ :=
    if s.itemHeights = [] then (id : ℚ) * s.itemMin + (id : ℚ) * s.padding
    else cumY s s.itemMin id.toNat
  if y < s.offsetY then y
  else if s.offsetY + s.scrollH < y + s.itemMin then y + s.itemMin - s.scrollH
  else s.offsetY

/-- External effects of a widget operation, in the order the Go code
performs them: a Refresh (re-render) request, an OnSelected invocation,
an OnUnselected invocation. -/
inductive ListEvent
  | refreshE
  | selectedE (id : ℤ)
  | unselectedE (id : ℤ)
deriving DecidableEq

/-- Select (src/widget/list.go lines 162-185).  Early return when id is
already the selection head or out of range; otherwise the selection is
replaced, the list scrolls to id, refreshes, and the deferred callbacks
fire: first OnUnselected for the old selection, then OnSelected. -/
def SelectOp (s : ListW) (id : ℤ) : ListW × List ListEvent :=
  if s.selected.head? = some id then (s, [])
  else if id < 0 ∨ (s.length : ℤ) ≤ id then (s, [])
  else
    let old := s.selected
    let s2 : ListW := { s with selected := [id], offsetY := scrollToOffset s id }
    (s2, [ListEvent.refreshE] ++
      (match old with
       | o :: _ => [ListEvent.unselectedE o]
       | [] => []) ++ [ListEvent.selectedE id])

/-- ScrollTo (src/widget/list.go lines 190-200): range check, then
scrollTo and Refresh. -/
def ScrollToOp (s : ListW) (id : ℤ) : ListW × List ListEvent :=
  if id < 0 ∨ (s.length : ℤ) ≤ id then (s, [])
  else ({ s with offsetY := scrollToOffset s id }, [ListEvent.refreshE])

/-- ScrollToTop (src/widget/list.go lines 220-223). -/
def ScrollToTopOp (s : ListW) : ListW × List ListEvent :=
  ({ s with offsetY := scrollToOffset s 0 }, [ListEvent.refreshE])

/-- ScrollToBottom (src/widget/list.go lines 205-215). -/
def ScrollToBottomOp (s : ListW) : ListW × List ListEvent :=
  let id : ℤ := if 0 < s.length then (s.length : ℤ) - 1 else 0
  ({ s with offsetY := scrollToOffset s id }, [ListEvent.refreshE])

/-- Unselect (src/widget/list.go lines 226-236): no-op unless id is the
current selection head; otherwise clear, Refresh, fire OnUnselected. -/
def UnselectOp (s : ListW) (id : ℤ) : ListW × List ListEvent :=
  if s.selected.head? = some id then
    ({ s with selected := [] }, [ListEvent.refreshE, ListEvent.unselectedE id])
  else (s, [])

/-- UnselectAll (src/widget/list.go lines 241-254). -/
def UnselectAllOp (s : ListW) : ListW × List ListEvent :=
  if s.selected = [] then (s, [])
  else ({ s with selected := [] },
    ListEvent.refreshE :: s.selected.map ListEvent.unselectedE)

/-- Map write that replaces any previous binding of the key, modelling
the Go map assignment l.itemHeights[id] = height. -/
def hInsert (m : List (ℤ × ℚ)) (id : ℤ) (h : ℚ) : List (ℤ × ℚ) :=
  (id, h) :: m.filter (fun p => p.1 != id)

/-- SetItemHeight (src/widget/list.go lines 104-118): the refresh flag
compares the previous map entry (Go zero value 0 when absent) with the
new height; the entry is always written. -/
def SetItemHeightOp (s : ListW) (id : ℤ) (height : ℚ) : ListW × List ListEvent :=
  let refresh := (s.itemHeights.lookup id).getD 0 ≠ height
  ({ s with itemHeights := hInsert s.itemHeights id height },
    if refresh then [ListEvent.refreshE] else [])

/-- Public operations of the widget facade. -/
inductive ListOp
  | select (id : ℤ)
  | unselect (id : ℤ)
  | unselectAll
  | scrollToIdx (id : ℤ)
  | scrollTops
  | scrollBottoms
  | setItemHeight (id : ℤ) (h : ℚ)

/-- Resulting widget state of one public operation. -/
def applyOp (s : ListW) : ListOp → ListW
  | ListOp.select id => (SelectOp s id).1
  | ListOp.unselect id => (UnselectOp s id).1
  | ListOp.unselectAll => (UnselectAllOp s).1
  | ListOp.scrollToIdx id => (ScrollToOp s id).1
  | ListOp.scrollTops => (ScrollToTopOp s).1
  | ListOp.scrollBottoms => (ScrollToBottomOp s).1
  | ListOp.setItemHeight id h => (SetItemHeightOp s id h).1

/-- A separator object (widget.NewSeparator): position, size and
visibility.  A freshly created separator is visible with zero position
and size. -/
structure SepState where
  y : ℚ
  w : ℚ
  h : ℚ
  shown : Bool
deriving DecidableEq

/-- Fresh separator as created by NewSeparator in updateSeparators. -/
def newSep : SepState := { y := 0, w := 0, h := 0, shown := true }

/-- A mounted row cell: the pooled view identity, its y position and its
height (the Move and Resize calls of the reconciliation loop record
exactly these).  none models the Go nil entry left in cells when
getItem returns nil. -/
abbrev CellInfo := Option (Nat × ℚ × ℚ)

/-- State owned by listLayout (src/widget/list.go lines 497-505), plus
two monotone counters recording how many views were obtained from the
pool and released to it (syncPool.Obtain hits and Release calls), and
nextId, the supply of fresh views for CreateItem.  content is the object
list published to the scroller container. -/
structure LayoutState where
  visible : List (ℤ × Nat)
  pool : List Nat
  nextId : Nat
  children : List CellInfo
  separators : List SepState
  content : List CellInfo × List SepState
  obtained : Nat
  released : Nat
deriving DecidableEq

/-- Result of the row-building reconciliation loop. -/
structure BuildRes where
  vis : List (ℤ × Nat)
  cells : List CellInfo
  pool : List Nat
  nextId : Nat
  obtained : Nat
deriving DecidableEq

/-- The row loop of updateList (src/widget/list.go lines 614-634): for
each visible row reuse the previously mounted view when present,
otherwise obtain one from the pool (counting the hit) or create a fresh
one via CreateItem; a pool miss with no CreateItem leaves a nil cell and
skips the y advance, exactly like the continue in the Go loop. -/
def buildVisible (s : ListW) (was : List (ℤ × Nat)) :
    ℤ → ℚ → List ℚ → List Nat → Nat → Nat → BuildRes
  | _row, _y, [], pool, nid, obt =>
    { vis := [], cells := [], pool := pool, nextId := nid, obtained := obt }
  | row, y, h :: rest, pool, nid, obt =>
    match was.lookup row with
    | some c =>
      let r := buildVisible s was (row + 1) (y + h + s.padding) rest pool nid obt
      { r with vis := (row, c) :: r.vis, cells := some (c, y, h) :: r.cells }
    | none =>
      match pool with
      | c :: ps =>
        let r := buildVisible s was (row + 1) (y + h + s.padding) rest ps nid (obt + 1)
        { r with vis := (row, c) :: r.vis, cells := some (c, y, h) :: r.cells }
      | [] =>
        if s.hasCreate then
          let r := buildVisible s was (row + 1) (y + h + s.padding) rest [] (nid + 1) obt
          { r with vis := (row, nid) :: r.vis, cells := some (nid, y, h) :: r.cells }
        else
          let r := buildVisible s was (row + 1) y rest [] nid obt
          { r with cells := none :: r.cells }

/-- The release loop of updateList (src/widget/list.go lines 643-650):
every previously mounted view whose index is no longer visible is
released back to the pool.  Go map iteration order is unspecified; the
embedding iterates in association-list order, and no proved claim
depends on the order of pooled views. -/
def releaseDropped (newVis : List (ℤ × Nat)) :
    List (ℤ × Nat) → List Nat → Nat → List Nat × Nat
  | [], pool, rel => (pool, rel)
  | (id, old) :: rest, pool, rel =>
    if (newVis.lookup id).isSome then releaseDropped newVis rest pool rel
    else releaseDropped newVis rest (pool ++ [old]) (rel + 1)

/-- Y position of a child cell as read by updateSeparators
(child.Position().Y; a nil child would crash the Go code and is only
reachable without a CreateItem callback). -/
def cellY (c : CellInfo) : ℚ :=
  match c with
  | some (_, y, _) => y
  | none => 0

/-- The positioning loop of updateSeparators (src/widget/list.go lines
680-687): index 0 is skipped, every other separator with a
corresponding child is moved to the child y minus half of padding plus
separator thickness, resized to the list width, and shown. -/
def positionSeps (s : ListW) (children : List CellInfo) :
    Nat → List SepState → List SepState
  | _, [] => []
  | i, sp :: rest =>
    (if i = 0 then sp
     else
       match children[i]? with
       | some c =>
         { y := cellY c - (s.padding + s.sepThickness) / 2,
           w := s.width, h := s.sepThickness, shown := true }
       | none => sp) :: positionSeps s children (i + 1) rest

/-- updateSeparators (src/widget/list.go lines 665-688): with more than
one child the separator list is truncated or grown to the child count
(note: to the child count, not one fewer), otherwise dropped; then the
positioning loop runs over the children. -/
def updateSeparators (s : ListW) (children : List CellInfo)
    (seps : List SepState) : List SepState :=
  let seps1 :=
    if 1 < children.length then
      if children.length < seps.length then seps.take children.length
      else seps ++ List.replicate (children.length - seps.length) newSep
    else []
  positionSeps s children 0 seps1

/-- updateList (src/widget/list.go lines 589-663): one reconciliation
pass.  Computes the visible range; aborts without mutating anything when
it is empty while the list is non-empty; otherwise rebuilds the mounted
map, releases dropped views, rebuilds separators and publishes the
combined object list.  The trailing setupListItem loop only touches the
item views and invokes caller callbacks, not the layout state modelled
here; the focus hand-off is part of the external canvas. -/
def updateList (s : ListW) (st : LayoutState) : LayoutState :=
  let r := visibleItemHeights s s.itemMin s.length
  if r.1.length = 0 ∧ 0 < s.length then st
  else
    let b := buildVisible s st.visible r.2.2 r.2.1 r.1 st.pool st.nextId st.obtained
    let pr := releaseDropped b.vis st.visible b.pool st.released
    let seps := updateSeparators s b.cells st.separators
    { visible := b.vis, pool := pr.1, nextId := b.nextId, children := b.cells,
      separators := seps, content := (b.cells, seps),
      obtained := b.obtained, released := pr.2 }

/-- Start index claimed by the spec for the uniform fast path: floor of
scrollOffsetY over the padded height, clamped to the index range. -/
def specStartIndex (s : ListW) (itemHeight : ℚ) (length : Nat) : ℤ :=
  max 0 (min ⌊s.offsetY / (itemHeight + s.padding)⌋ ((length : ℤ) - 1))

/-- End index claimed by the spec for the uniform fast path: ceiling of
scrollOffsetY plus viewport height over the padded height, clamped to
the item count.  The code instead uses the snapped start offset in the
numerator; the two differ, see the C2 counterexample. -/
def specClaimedEndIndex (s : ListW) (itemHeight : ℚ) (length : Nat) : ℤ :=
  min ⌈(s.offsetY + s.scrollH) / (itemHeight + s.padding)⌉ (length : ℤ)

/-- The empty layout state a fresh listLayout starts from. -/
def layoutState0 : LayoutState :=
  { visible := [], pool := [], nextId := 0, children := [], separators := [],
    content := ([], []), obtained := 0, released := 0 }

/-- Uniform-height list of 3 rows of height 20, padding 1, scrolled to
offset 20 with a 23 pixel viewport: the row at y = 42 intersects the
viewport interval but is not part of the computed visible range. -/
def cexC1 : ListW :=
  { length := 3, itemMin := 20, itemHeights := [], offsetY := 20,
    scrollH := 23, width := 100, padding := 1, sepThickness := 1,
    hasCreate := true, selected := [] }

/-- The same geometry as cexC1 with 100 rows, exhibiting the difference
between the claimed end-index formula and the code. -/
def cexC2 : ListW :=
  { length := 100, itemMin := 20, itemHeights := [], offsetY := 20,
    scrollH := 23, width := 100, padding := 1, sepThickness := 1,
    hasCreate := true, selected := [] }

/-- The spec scenario: 100 rows of height 20, separator 1, viewport 50,
offset 0. -/
def scenC2 : ListW :=
  { length := 100, itemMin := 20, itemHeights := [], offsetY := 0,
    scrollH := 50, width := 100, padding := 1, sepThickness := 1,
    hasCreate := true, selected := [] }

/-- The SetItemHeight(5, 40) scenario: template height 20, padding 1,
viewport 50, scrolled to offset 60 so that row 5 (span 105..145) lies
below the viewport. -/
def bugC3 : ListW :=
  { length := 10, itemMin := 20, itemHeights := [((5 : ℤ), 40)],
    offsetY := 60, scrollH := 50, width := 100, padding := 1,
    sepThickness := 1, hasCreate := true, selected := [] }

/-- Uniform list whose viewport shows exactly two rows. -/
def cexC4 : ListW :=
  { length := 10, itemMin := 20, itemHeights := [], offsetY := 0,
    scrollH := 23, width := 100, padding := 1, sepThickness := 1,
    hasCreate := true, selected := [] }

/-- List with a height override on row 0, scrolled into the middle of
row 1, used to exercise the sparse path. -/
def wexC1 : ListW :=
  { length := 4, itemMin := 20, itemHeights := [((0 : ℤ), 30)],
    offsetY := 25, scrollH := 50, width := 100, padding := 1,
    sepThickness := 1, hasCreate := true, selected := [] }

/-- Small list with nothing selected, used by several witnesses. -/
def exSmall : ListW :=
  { length := 3, itemMin := 20, itemHeights := [], offsetY := 0,
    scrollH := 50, width := 100, padding := 1, sepThickness := 1,
    hasCreate := true, selected := [] }

/-- List whose scroller has no measured extent yet (height 0). -/
def wexC8 : ListW :=
  { length := 5, itemMin := 20, itemHeights := [], offsetY := 0,
    scrollH := 0, width := 100, padding := 1, sepThickness := 1,
    hasCreate := true, selected := [] }

/-- Cumulative pixel extent of the first j entries of a height list,
each followed by one separator padding; the reconciliation loop places
row j of the visible span at the start offset plus this amount. -/
def prefixY (s : ListW) : List ℚ → ℕ → ℚ
  | _, 0 => 0
  | [], _ + 1 => 0
  | h :: t, j + 1 => h + s.padding + prefixY s t j

/-- C5: an out-of-range id makes Select and ScrollTo complete no-ops
(state unchanged, no refresh, no callbacks), and Unselect of an id that
is not the current selection is likewise a no-op. -/
theorem c5_out_of_range_noop (s : ListW) (id : ℤ) :
    ((id < 0 ∨ (s.length : ℤ) ≤ id) → SelectOp s id = (s, [])) ∧
    ((id < 0 ∨ (s.length : ℤ) ≤ id) → ScrollToOp s id = (s, [])) ∧
    (s.selected.head? ≠ some id → UnselectOp s id = (s, [])) := by
  refine ⟨fun h => ?_, fun h => ?_, fun h => ?_⟩
  · unfold SelectOp
    by_cases h1 : s.selected.head? = some id
    · rw [if_pos h1]
    · rw [if_neg h1, if_pos h]
  · unfold ScrollToOp
    rw [if_pos h]
  · unfold UnselectOp
    rw [if_neg h]

/-- Witness for C5 at the concrete state exSmall with id 5. -/
theorem c5_out_of_range_noop_witness :
    SelectOp exSmall 5 = (exSmall, []) ∧ ScrollToOp exSmall 5 = (exSmall, []) ∧
    UnselectOp exSmall 5 = (exSmall, []) := by
  obtain ⟨f1, f2, f3⟩ := c5_out_of_range_noop exSmall 5
  exact ⟨f1 (by decide), f2 (by decide), f3 (by decide)⟩

/-- C6: from an unselected state, Select a then Select b fires on the
second call the trace refresh, unselect a, select b; over the whole
sequence exactly one unselect callback fires (for a) and exactly one
select callback with argument b fires, the unselect before it and both
after the re-render. -/
theorem c6_select_select_callbacks (s : ListW) (a b : ℤ) (ha : 0 ≤ a)
    (ha2 : a < (s.length : ℤ)) (hb : 0 ≤ b) (hb2 : b < (s.length : ℤ))
    (hab : a ≠ b) (h0 : s.selected = []) :
    (SelectOp (SelectOp s a).1 b).2 =
      [ListEvent.refreshE, ListEvent.unselectedE a, ListEvent.selectedE b] ∧
    ((SelectOp s a).2 ++ (SelectOp (SelectOp s a).1 b).2).filter
        (fun e => match e with | ListEvent.unselectedE _ => true | _ => false) =
      [ListEvent.unselectedE a] ∧
    ((SelectOp s a).2 ++ (SelectOp (SelectOp s a).1 b).2).filter
        (fun e => match e with | ListEvent.selectedE x => x == b | _ => false) =
      [ListEvent.selectedE b] := by
  have h1 : SelectOp s a =
      ({ s with selected := [a], offsetY := scrollToOffset s a },
        [ListEvent.refreshE, ListEvent.selectedE a]) := by
    unfold SelectOp
    rw [if_neg (by simp [h0]), if_neg (by omega)]
    simp [h0]
  have h2 : (SelectOp (SelectOp s a).1 b).2 =
      [ListEvent.refreshE, ListEvent.unselectedE a, ListEvent.selectedE b] := by
    rw [h1]
    unfold SelectOp
    dsimp only
    rw [if_neg (by simp [hab]), if_neg (by omega)]
    rfl
  refine ⟨h2, ?_, ?_⟩ <;> rw [h2, h1] <;>
    simp [List.filter, beq_eq_false_iff_ne.mpr hab]

/-- Witness for C6 at exSmall with a = 0, b = 1. -/
theorem c6_select_select_callbacks_witness :
    (SelectOp (SelectOp exSmall 0).1 1).2 =
      [ListEvent.refreshE, ListEvent.unselectedE 0, ListEvent.selectedE 1] ∧
    ((SelectOp exSmall 0).2 ++ (SelectOp (SelectOp exSmall 0).1 1).2).filter
        (fun e => match e with | ListEvent.unselectedE _ => true | _ => false) =
      [ListEvent.unselectedE 0] ∧
    ((SelectOp exSmall 0).2 ++ (SelectOp (SelectOp exSmall 0).1 1).2).filter
        (fun e => match e with | ListEvent.selectedE x => x == 1 | _ => false) =
      [ListEvent.selectedE 1] :=
  c6_select_select_callbacks exSmall 0 1 (by decide) (by decide) (by decide)
    (by decide) (by decide) rfl

/-- C7: every public operation preserves the invariant that at most one
item is selected. -/
theorem c7_selection_at_most_one (s : ListW) (op : ListOp)
    (h : s.selected.length ≤ 1) : (applyOp s op).selected.length ≤ 1 := by
  cases op <;>
    simp only [applyOp, SelectOp, UnselectOp, UnselectAllOp, ScrollToOp,
      ScrollToTopOp, ScrollToBottomOp, SetItemHeightOp] <;>
    (try split_ifs) <;> simp_all

/-- Witness for C7 at exSmall with Select 1. -/
theorem c7_selection_at_most_one_witness :
    (applyOp exSmall (ListOp.select 1)).selected.length ≤ 1 :=
  c7_selection_at_most_one exSmall (ListOp.select 1) (by decide)

/-- C8: when the visible-range computation returns no rows while the
list is non-empty, the reconciliation pass leaves the whole layout state
(mounted map, pool, children, separators, published content) untouched. -/
theorem c8_abort_no_mutation (s : ListW) (st : LayoutState)
    (h1 : (visibleItemHeights s s.itemMin s.length).1 = [])
    (h2 : 0 < s.length) : updateList s st = st := by
  simp [updateList, h1, h2]

/-- Witness for C8: a list with an unmeasured viewport aborts the pass. -/
theorem c8_abort_no_mutation_witness :
    (visibleItemHeights wexC8 wexC8.itemMin wexC8.length).1 = [] ∧
    0 < wexC8.length ∧ updateList wexC8 layoutState0 = layoutState0 := by
  have h1 : (visibleItemHeights wexC8 wexC8.itemMin wexC8.length).1 = [] := by
    norm_num [visibleItemHeights, wexC8]
  exact ⟨h1, by decide, c8_abort_no_mutation wexC8 layoutState0 h1 (by decide)⟩

/-- C10: SetItemHeight always records the override, and requests a
Refresh exactly when the previously stored value (0 when absent) differs
from the new height; in particular a first call with height 0 records
the entry without refreshing. -/
theorem c10_set_item_height (s : ListW) (id : ℤ) (height : ℚ) :
    (SetItemHeightOp s id height).1.itemHeights.lookup id = some height ∧
    ((SetItemHeightOp s id height).2 =
      if (s.itemHeights.lookup id).getD 0 ≠ height then [ListEvent.refreshE]
      else []) ∧
    (s.itemHeights.lookup id = none → (SetItemHeightOp s id 0).2 = []) := by
  refine ⟨?_, rfl, fun h => ?_⟩
  · simp [SetItemHeightOp, hInsert, List.lookup]
  · simp [SetItemHeightOp, h]

/-- C3 (code bug): after SetItemHeight(5, 40), ScrollTo 5 from offset 60
moves the offset to 75 using the 20 pixel template height, so the
40 pixel override row spanning 105..145 does not fit in the published
viewport interval 75..125; the selection is untouched. -/
theorem c3_scroll_to_override_bug :
    (ScrollToOp bugC3 5).1.offsetY = 75 ∧
    (ScrollToOp bugC3 5).1.selected = bugC3.selected ∧
    ¬((ScrollToOp bugC3 5).1.offsetY ≤ cumY bugC3 bugC3.itemMin 5 ∧
      cumY bugC3 bugC3.itemMin 5 + rowH bugC3 bugC3.itemMin 5 ≤
        (ScrollToOp bugC3 5).1.offsetY + bugC3.scrollH) := by
  simp [ScrollToOp, scrollToOffset, bugC3, cumY, rowH, List.lookup]
  norm_num

/-- C1 counterexample: in cexC1 the rectangle of row 2 (y = 42, height
20) intersects the viewport interval 20..43, yet the computed range is
rows 0..1. -/
theorem c1_uniform_counterexample :
    cumY cexC1 cexC1.itemMin 2 < cexC1.offsetY + cexC1.scrollH ∧
    cexC1.offsetY < cumY cexC1 cexC1.itemMin 2 + rowH cexC1 cexC1.itemMin 2 ∧
    ¬((visibleItemHeights cexC1 cexC1.itemMin cexC1.length).2.2 ≤ 2 ∧
      (2 : ℤ) < (visibleItemHeights cexC1 cexC1.itemMin cexC1.length).2.2 +
        (visibleItemHeights cexC1 cexC1.itemMin cexC1.length).1.length) := by
  have ha : visibleItemHeights cexC1 cexC1.itemMin cexC1.length =
      ([20, 20], 0, 0) := by
    have hc : ⌈(23 : ℚ) / 21⌉ = 2 := by norm_num [Int.ceil_eq_iff]
    norm_num [visibleItemHeights, cexC1, hc]
    rfl
  have hb : cumY cexC1 cexC1.itemMin 2 = 42 := by
    norm_num [cumY, rowH, cexC1, List.lookup]
  rw [ha, hb]
  norm_num [cexC1, rowH]

/-- C2 counterexample: in cexC2 the spec formula yields indices 0..2
(three rows) while the code computes two rows, because the code applies
the ceiling to the snapped offset 0 rather than to the true offset 20. -/
theorem c2_end_index_counterexample :
    specStartIndex cexC2 cexC2.itemMin cexC2.length = 0 ∧
    specClaimedEndIndex cexC2 cexC2.itemMin cexC2.length = 3 ∧
    ((visibleItemHeights cexC2 cexC2.itemMin cexC2.length).1.length : ℤ) = 2 ∧
    ((visibleItemHeights cexC2 cexC2.itemMin cexC2.length).1.length : ℤ) ≠
      specClaimedEndIndex cexC2 cexC2.itemMin cexC2.length -
        specStartIndex cexC2 cexC2.itemMin cexC2.length := by
  have ha : visibleItemHeights cexC2 cexC2.itemMin cexC2.length =
      (List.replicate 2 20, 0, 0) := by
    have hc : ⌈(23 : ℚ) / 21⌉ = 2 := by norm_num [Int.ceil_eq_iff]
    norm_num [visibleItemHeights, cexC2, hc]
    rfl
  have hs : specStartIndex cexC2 cexC2.itemMin cexC2.length = 0 := by
    norm_num [specStartIndex, cexC2]
  have he : specClaimedEndIndex cexC2 cexC2.itemMin cexC2.length = 3 := by
    have hc : ⌈(43 : ℚ) / 21⌉ = 3 := by norm_num [Int.ceil_eq_iff]
    norm_num [specClaimedEndIndex, cexC2, hc]
  rw [ha, hs, he]
  norm_num

/-- C4 counterexample: a pass showing two rows maintains two separator
objects, not one. -/
theorem c4_separator_count_counterexample :
    (updateList cexC4 layoutState0).children.length = 2 ∧
    (updateList cexC4 layoutState0).separators.length = 2 ∧
    (updateList cexC4 layoutState0).separators.length ≠
      (updateList cexC4 layoutState0).children.length - 1 := by
  have hc : ⌈(23 : ℚ) / 21⌉ = 2 := by norm_num [Int.ceil_eq_iff]
  norm_num [updateList, visibleItemHeights, cexC4, layoutState0, buildVisible,
    releaseDropped, updateSeparators, positionSeps, newSep, cellY,
    List.lookup, hc]

/-- Unfolding equation of rowH. -/
theorem rowH_def (s : ListW) (m : ℚ) (i : ℤ) :
    rowH s m i = (s.itemHeights.lookup i).getD m := rfl

/-- Unfolding equation of cumY: the next row starts one height and one
separator padding below the current one. -/
theorem cumY_succ (s : ListW) (m : ℚ) (n : ℕ) :
    cumY s m (n + 1) = cumY s m n + rowH s m (n : ℤ) + s.padding := rfl

/-- A successful association-list lookup comes from a member pair. -/
theorem mem_of_lookup_eq_some {l : List (ℤ × ℚ)} {i : ℤ} {v : ℚ}
    (h : l.lookup i = some v) : (i, v) ∈ l := by
  induction l with
  | nil => simp [List.lookup] at h
  | cons p rest ih =>
    rw [List.lookup] at h
    by_cases he : i == p.1
    · simp [he] at h
      have h2 : p = (i, v) := by
        have h3 : i = p.1 := by simpa using he
        cases p
        simp_all
      rw [h2]
      exact List.mem_cons_self _ _
    · simp [he] at h
      exact List.mem_cons_of_mem _ (ih h)

/-- Row heights are nonnegative when the template height and all
overrides are. -/
theorem rowH_nonneg (s : ListW) (m : ℚ) (hm : 0 ≤ m)
    (hh : ∀ q ∈ s.itemHeights, 0 ≤ q.2) (i : ℤ) : 0 ≤ rowH s m i := by
  rw [rowH_def]
  cases hlk : s.itemHeights.lookup i with
  | none => simpa using hm
  | some v =>
    have := hh _ (mem_of_lookup_eq_some hlk)
    simpa using this

/-- Cumulative row positions are monotone in the row index. -/
theorem cumY_mono (s : ListW) (m : ℚ) (hp : 0 ≤ s.padding) (hm : 0 ≤ m)
    (hh : ∀ q ∈ s.itemHeights, 0 ≤ q.2) : Monotone (cumY s m) :=
  monotone_nat_of_le_succ fun n => by
    rw [cumY_succ]
    have := rowH_nonneg s m hm hh (n : ℤ)
    linarith

/-- Without overrides every row starts at a stride multiple. -/
theorem cumY_uniform (s : ListW) (m : ℚ) (hu : s.itemHeights = []) (n : ℕ) :
    cumY s m n = n * (m + s.padding) := by
  induction n with
  | zero => simp [cumY]
  | succ k ihk =>
    rw [cumY_succ, ihk, rowH_def, hu]
    simp
    ring

/-- Ceiling of an integer stride multiple plus a remainder. -/
theorem ceil_mul_add_div (q : ℤ) (H ph : ℚ) (hph : ph ≠ 0) :
    ⌈((q : ℚ) * ph + H) / ph⌉ = q + ⌈H / ph⌉ := by
  rw [add_div, mul_div_cancel_right₀ _ hph, add_comm, Int.ceil_add_int, add_comm]

/-- A positive quantity spans at least one stride. -/
theorem one_le_ceil_div (H ph : ℚ) (hH : 0 < H) (hph : 0 < ph) :
    1 ≤ ⌈H / ph⌉ := by
  have : (0 : ℤ) < ⌈H / ph⌉ := Int.lt_ceil.mpr (by push_cast; positivity)
  omega

/-- Characterization of the uniform fast path of visibleItemHeights:
the returned start index, start offset, entry count and entries in terms
of floor and ceiling of the scroll geometry. -/
theorem vih_uniform_eqs (s : ListW) (hu : s.itemHeights = [])
    (hp : 0 < s.padding) (hm : 0 ≤ s.itemMin) (ho : 0 ≤ s.offsetY)
    (hH : 0 < s.scrollH) :
    (visibleItemHeights s s.itemMin s.length).2.2 =
      max 0 (min ⌊s.offsetY / (s.itemMin + s.padding)⌋ ((s.length : ℤ) - 1)) ∧
    (visibleItemHeights s s.itemMin s.length).2.1 =
      (if min ⌊s.offsetY / (s.itemMin + s.padding)⌋ ((s.length : ℤ) - 1) < 0
       then 0
       else (⌊s.offsetY / (s.itemMin + s.padding)⌋ : ℚ) *
         (s.itemMin + s.padding)) ∧
    ((visibleItemHeights s s.itemMin s.length).1.length : ℤ) =
      min ⌈((visibleItemHeights s s.itemMin s.length).2.1 + s.scrollH) /
            (s.itemMin + s.padding)⌉ (s.length : ℤ) -
        (visibleItemHeights s s.itemMin s.length).2.2 ∧
    ∀ x ∈ (visibleItemHeights s s.itemMin s.length).1, x = s.itemMin := by
  have hph : 0 < s.itemMin + s.padding := by linarith
  have hq0 : 0 ≤ ⌊s.offsetY / (s.itemMin + s.padding)⌋ :=
    Int.floor_nonneg.mpr (div_nonneg ho hph.le)
  have hL : (⌊((⌊s.offsetY / (s.itemMin + s.padding)⌋ : ℚ) *
      (s.itemMin + s.padding)) / (s.itemMin + s.padding)⌋ : ℤ) =
      ⌊s.offsetY / (s.itemMin + s.padding)⌋ := by
    rw [mul_div_cancel_right₀ _ hph.ne.symm, Int.floor_intCast]
  have hceil : ⌈(((⌊s.offsetY / (s.itemMin + s.padding)⌋ : ℚ)) *
      (s.itemMin + s.padding) + s.scrollH) / (s.itemMin + s.padding)⌉ =
      ⌊s.offsetY / (s.itemMin + s.padding)⌋ +
        ⌈s.scrollH / (s.itemMin + s.padding)⌉ := by
    rw [add_div, mul_div_cancel_right₀ _ hph.ne.symm, add_comm,
      Int.ceil_add_int, add_comm]
  have hC1 : 1 ≤ ⌈s.scrollH / (s.itemMin + s.padding)⌉ := by
    have : (0 : ℤ) < ⌈s.scrollH / (s.itemMin + s.padding)⌉ :=
      Int.lt_ceil.mpr (by push_cast; positivity)
    omega
  unfold visibleItemHeights
  rw [if_neg (not_le.mpr hH), if_pos hu]
  dsimp only
  rw [hL, hceil]
  set q := ⌊s.offsetY / (s.itemMin + s.padding)⌋ with hqd
  set C := ⌈s.scrollH / (s.itemMin + s.padding)⌉ with hCd
  by_cases h1 : (s.length : ℤ) - 1 < q
  · rw [if_pos h1]
    by_cases h2 : ((s.length : ℤ) - 1) < 0
    · rw [if_pos h2]
      dsimp only
      refine ⟨by omega, ?_, ?_, fun x hx => List.eq_of_mem_replicate hx⟩
      · rw [if_pos (by omega)]
      · rw [zero_add, ← hCd, List.length_replicate]
        split_ifs <;> omega
    · rw [if_neg h2]
      dsimp only
      refine ⟨by omega, ?_, ?_, fun x hx => List.eq_of_mem_replicate hx⟩
      · rw [if_neg (by omega)]
      · rw [hceil, List.length_replicate]
        split_ifs <;> omega
  · rw [if_neg h1, if_neg (by omega : ¬q < 0)]
    dsimp only
    refine ⟨by omega, ?_, ?_, fun x hx => List.eq_of_mem_replicate hx⟩
    · rw [if_neg (by omega)]
    · rw [hceil, List.length_replicate]
      split_ifs <;> omega

/-- C2 (amended): on the uniform fast path the start index is the floor
of scrollOffsetY over the padded height clamped to the index range, the
start offset is that floor times the stride (reset to 0 when the clamp
went below zero), every returned entry equals the uniform height, and
the entry count is the clamped end index minus the start index where the
end index is the ceiling of the returned start offset (not of
scrollOffsetY, as claimed) plus the viewport height over the stride. -/
theorem c2_uniform_fast_path (s : ListW) (hu : s.itemHeights = [])
    (hp : 0 < s.padding) (hm : 0 ≤ s.itemMin) (ho : 0 ≤ s.offsetY)
    (hH : 0 < s.scrollH) :
    (visibleItemHeights s s.itemMin s.length).2.2 =
      max 0 (min ⌊s.offsetY / (s.itemMin + s.padding)⌋ ((s.length : ℤ) - 1)) ∧
    (visibleItemHeights s s.itemMin s.length).2.1 =
      (if min ⌊s.offsetY / (s.itemMin + s.padding)⌋ ((s.length : ℤ) - 1) < 0
       then 0
       else (⌊s.offsetY / (s.itemMin + s.padding)⌋ : ℚ) *
         (s.itemMin + s.padding)) ∧
    ((visibleItemHeights s s.itemMin s.length).1.length : ℤ) =
      min ⌈((visibleItemHeights s s.itemMin s.length).2.1 + s.scrollH) /
            (s.itemMin + s.padding)⌉ (s.length : ℤ) -
        (visibleItemHeights s s.itemMin s.length).2.2 ∧
    ∀ x ∈ (visibleItemHeights s s.itemMin s.length).1, x = s.itemMin :=
  vih_uniform_eqs s hu hp hm ho hH

/-- Witness for C2 at the spec scenario scenC2: 100 rows of height 20,
separator 1, viewport 50, offset 0 give start index 0 and three visible
rows of height 20 (indices 0, 1, 2). -/
theorem c2_uniform_fast_path_witness :
    (visibleItemHeights scenC2 scenC2.itemMin scenC2.length).2.2 = 0 ∧
    (visibleItemHeights scenC2 scenC2.itemMin scenC2.length).1.length = 3 ∧
    ∀ x ∈ (visibleItemHeights scenC2 scenC2.itemMin scenC2.length).1,
      x = 20 := by
  obtain ⟨h1, h2, h3, h4⟩ := c2_uniform_fast_path scenC2 rfl
    (by norm_num [scenC2]) (by norm_num [scenC2]) (by norm_num [scenC2])
    (by norm_num [scenC2])
  have e1 : (visibleItemHeights scenC2 scenC2.itemMin scenC2.length).2.2 = 0 := by
    rw [h1]; norm_num [scenC2]
  have e2 : (visibleItemHeights scenC2 scenC2.itemMin scenC2.length).2.1 = 0 := by
    rw [h2]; norm_num [scenC2]
  have hc : ⌈(50 : ℚ) / 21⌉ = 3 := by norm_num [Int.ceil_eq_iff]
  rw [e1, e2] at h3
  norm_num [scenC2, hc] at h3
  exact ⟨e1, by exact_mod_cast h3, fun x hx => h4 x hx⟩

/-- Final-state property of the sparse scan: under the loop invariants,
every row strictly before the scan point whose rectangle reaches below
the scroll offset lies inside the recorded window. -/
theorem visibleLoop_final (s : ListW) (m : ℚ)
    (hp : 0 < s.padding) (hm : 0 ≤ m) (hh : ∀ q ∈ s.itemHeights, 0 ≤ q.2)
    (i : ℕ) (isVis : Bool) (mr : ℤ) (oy : ℚ) (vis : List ℚ)
    (hInv1 : isVis = false → vis = [] ∧ ∀ j : ℕ, j ≤ i → cumY s m j ≤ s.offsetY)
    (hInv2 : isVis = true → 0 ≤ mr ∧ mr.toNat + 1 ≤ i ∧ (mr.toNat : ℤ) = mr ∧
      oy = cumY s m mr.toNat ∧ oy ≤ s.offsetY ∧
      s.offsetY < cumY s m (mr.toNat + 1) ∧ vis.length + mr.toNat = i)
    (i0 : ℕ) (hi0 : i0 < i)
    (hgt : s.offsetY < cumY s m i0 + rowH s m (i0 : ℤ)) :
    mr ≤ (i0 : ℤ) ∧ (i0 : ℤ) < mr + vis.length := by
  cases isVis with
  | false =>
    obtain ⟨hv, hall⟩ := hInv1 rfl
    exfalso
    have h1 := hall (i0 + 1) (by omega)
    rw [cumY_succ] at h1
    linarith
  | true =>
    obtain ⟨h0, h1, h2, h3, h4, h5, h6⟩ := hInv2 rfl
    constructor
    · by_contra hcon
      push_neg at hcon
      have hle : i0 + 1 ≤ mr.toNat := by omega
      have hmono := cumY_mono s m hp.le hm hh hle
      rw [cumY_succ, ← h3] at hmono
      linarith
    · omega

/-- Coverage of the sparse scan: starting from any loop state satisfying
the invariants, the final window of visibleLoop contains every row whose
rectangle intersects the viewport interval measured from the true scroll
offset. -/
theorem visibleLoop_cover (s : ListW) (m : ℚ) (len : ℕ)
    (hp : 0 < s.padding) (hm : 0 ≤ m) (hh : ∀ q ∈ s.itemHeights, 0 ≤ q.2)
    (hH : 0 < s.scrollH) :
    ∀ (k i : ℕ), len ≤ i + k →
    ∀ (isVis : Bool) (mr : ℤ) (oy : ℚ) (vis : List ℚ),
    (isVis = false → vis = [] ∧ ∀ j : ℕ, j ≤ i → cumY s m j ≤ s.offsetY) →
    (isVis = true → 0 ≤ mr ∧ mr.toNat + 1 ≤ i ∧ (mr.toNat : ℤ) = mr ∧
      oy = cumY s m mr.toNat ∧ oy ≤ s.offsetY ∧
      s.offsetY < cumY s m (mr.toNat + 1) ∧ vis.length + mr.toNat = i) →
    ∀ (i0 : ℕ), i0 < len →
    cumY s m i0 < s.offsetY + s.scrollH →
    s.offsetY < cumY s m i0 + rowH s m (i0 : ℤ) →
    (visibleLoop s m len i (cumY s m i) isVis mr oy vis).2.2 ≤ (i0 : ℤ) ∧
    (i0 : ℤ) < (visibleLoop s m len i (cumY s m i) isVis mr oy vis).2.2 +
      (visibleLoop s m len i (cumY s m i) isVis mr oy vis).1.length := by
  intro k
  induction k with
  | zero =>
    intro i hik isVis mr oy vis hInv1 hInv2 i0 hi0 hlt hgt
    have hni : ¬ i < len := by omega
    rw [visibleLoop, dif_neg hni]
    exact visibleLoop_final s m hp hm hh i isVis mr oy vis hInv1 hInv2 i0
      (by omega) hgt
  | succ k ih =>
    intro i hik isVis mr oy vis hInv1 hInv2 i0 hi0 hlt hgt
    by_cases hi : i < len
    · rw [visibleLoop, dif_pos hi]
      dsimp only
      rw [← rowH_def]
      by_cases hbr : s.offsetY + s.scrollH ≤ cumY s m i
      · have hi0i : i0 < i := by
          by_contra hcon
          push_neg at hcon
          have := cumY_mono s m hp.le hm hh hcon
          linarith
        have hnb2 : ¬ cumY s m i ≤ s.offsetY := by linarith
        by_cases hb1 : cumY s m i ≤ s.offsetY - rowH s m (i : ℤ) - s.padding
        · rw [if_pos hb1, if_pos hbr]
          exact visibleLoop_final s m hp hm hh i isVis mr oy vis hInv1 hInv2 i0
            hi0i hgt
        · rw [if_neg hb1, if_neg hnb2, if_pos hbr]
          exact visibleLoop_final s m hp hm hh i isVis mr oy vis hInv1 hInv2 i0
            hi0i hgt
      · by_cases hb1 : cumY s m i ≤ s.offsetY - rowH s m (i : ℤ) - s.padding
        · rw [if_pos hb1, if_neg hbr, ← cumY_succ]
          cases isVis with
          | false =>
            obtain ⟨hv, hall⟩ := hInv1 rfl
            rw [if_neg (by simp : ¬ (false = true))]
            refine ih (i + 1) (by omega) false mr oy vis ?_ (by simp) i0 hi0
              hlt hgt
            intro _
            refine ⟨hv, fun j hj => ?_⟩
            rcases Nat.lt_or_ge j (i + 1) with hj2 | hj2
            · exact hall j (by omega)
            · have hj3 : j = i + 1 := by omega
              rw [hj3, cumY_succ]
              linarith
          | true =>
            obtain ⟨h0, h1, h2, h3, h4, h5, h6⟩ := hInv2 rfl
            rw [if_pos rfl]
            refine ih (i + 1) (by omega) true mr oy (vis ++ [rowH s m (i : ℤ)])
              (by simp) ?_ i0 hi0 hlt hgt
            intro _
            refine ⟨h0, by omega, h2, h3, h4, h5, by simp; omega⟩
        · by_cases hb2 : cumY s m i ≤ s.offsetY
          · rw [if_neg hb1, if_pos hb2, if_neg hbr, ← cumY_succ]
            cases isVis with
            | true =>
              obtain ⟨h0, h1, h2, h3, h4, h5, h6⟩ := hInv2 rfl
              exfalso
              have := cumY_mono s m hp.le hm hh h1
              linarith
            | false =>
              obtain ⟨hv, hall⟩ := hInv1 rfl
              rw [if_pos rfl]
              refine ih (i + 1) (by omega) true (i : ℤ) (cumY s m i)
                (vis ++ [rowH s m (i : ℤ)]) (by simp) ?_ i0 hi0 hlt hgt
              intro _
              refine ⟨by omega, by simp, by simp, by simp, hb2, ?_, ?_⟩
              · simp only [Int.toNat_natCast]
                rw [cumY_succ]
                push_neg at hb1
                linarith
              · simp [hv]
                omega
          · rw [if_neg hb1, if_neg hb2, if_neg hbr, ← cumY_succ]
            cases isVis with
            | false =>
              obtain ⟨hv, hall⟩ := hInv1 rfl
              exfalso
              exact hb2 (hall i (by omega))
            | true =>
              obtain ⟨h0, h1, h2, h3, h4, h5, h6⟩ := hInv2 rfl
              rw [if_pos rfl]
              refine ih (i + 1) (by omega) true mr oy (vis ++ [rowH s m (i : ℤ)])
                (by simp) ?_ i0 hi0 hlt hgt
              intro _
              refine ⟨h0, by omega, h2, h3, h4, h5, by simp; omega⟩
    · rw [visibleLoop, dif_neg hi]
      exact visibleLoop_final s m hp hm hh i isVis mr oy vis hInv1 hInv2 i0
        (by omega) hgt

/-- C1 (amended): the visible range is the contiguous index interval
from the returned start row over the returned number of heights, and it
contains every index whose row rectangle intersects the viewport window
of height scrollH based at the returned snapped start offset on the
uniform fast path, respectively at the true scroll offset on the
override path.  (As stated over the window based at scrollOffsetY the
claim fails on the uniform path, see the counterexample.) -/
theorem c1_visible_coverage (s : ListW) (hp : 0 < s.padding)
    (hm : 0 ≤ s.itemMin) (hh : ∀ q ∈ s.itemHeights, 0 ≤ q.2)
    (ho : 0 ≤ s.offsetY) (hH : 0 < s.scrollH) (i : ℕ) (hi : i < s.length)
    (hlt : cumY s s.itemMin i <
      (if s.itemHeights = [] then (visibleItemHeights s s.itemMin s.length).2.1
       else s.offsetY) + s.scrollH)
    (hgt : (if s.itemHeights = []
        then (visibleItemHeights s s.itemMin s.length).2.1
        else s.offsetY) < cumY s s.itemMin i + rowH s s.itemMin (i : ℤ)) :
    (visibleItemHeights s s.itemMin s.length).2.2 ≤ (i : ℤ) ∧
    (i : ℤ) < (visibleItemHeights s s.itemMin s.length).2.2 +
      (visibleItemHeights s s.itemMin s.length).1.length := by
  have hph : 0 < s.itemMin + s.padding := by linarith
  by_cases hu : s.itemHeights = []
  · obtain ⟨e1, e2, e3, _e4⟩ := vih_uniform_eqs s hu hp hm ho hH
    rw [if_pos hu] at hlt hgt
    have hq0 : 0 ≤ ⌊s.offsetY / (s.itemMin + s.padding)⌋ :=
      Int.floor_nonneg.mpr (div_nonneg ho hph.le)
    set q := ⌊s.offsetY / (s.itemMin + s.padding)⌋ with hqd
    have hcu := cumY_uniform s s.itemMin hu
    have hrH : rowH s s.itemMin (i : ℤ) = s.itemMin := by
      rw [rowH_def, hu]
      simp
    rw [hcu i] at hlt hgt
    rw [hrH] at hgt
    have hlen1 : 1 ≤ s.length := by omega
    have hmin0 : ¬ (min q ((s.length : ℤ) - 1) < 0) := by omega
    rw [if_neg hmin0] at e2
    rw [e2] at hlt hgt
    by_cases hcl : q ≤ (s.length : ℤ) - 1
    · have e1q : (visibleItemHeights s s.itemMin s.length).2.2 = q := by
        rw [e1]; omega
      have hC := ceil_mul_add_div q s.scrollH (s.itemMin + s.padding) hph.ne.symm
      set C := ⌈s.scrollH / (s.itemMin + s.padding)⌉ with hCd
      have hC1 : 1 ≤ C := one_le_ceil_div _ _ hH hph
      rw [e2, hC] at e3
      constructor
      · rw [e1q]
        by_contra hcon
        push_neg at hcon
        have hc2 : ((i : ℚ) + 1) * (s.itemMin + s.padding) ≤
            (q : ℚ) * (s.itemMin + s.padding) := by
          have : ((i : ℚ) + 1) ≤ (q : ℚ) := by exact_mod_cast hcon
          exact mul_le_mul_of_nonneg_right this hph.le
        nlinarith
      · rw [e1q] at e3 ⊢
        have hHC : s.scrollH ≤ (C : ℚ) * (s.itemMin + s.padding) := by
          have h1 := Int.le_ceil (s.scrollH / (s.itemMin + s.padding))
          rw [← hCd] at h1
          calc s.scrollH = s.scrollH / (s.itemMin + s.padding) *
                (s.itemMin + s.padding) := by
                rw [div_mul_cancel₀ _ hph.ne.symm]
            _ ≤ (C : ℚ) * (s.itemMin + s.padding) :=
                mul_le_mul_of_nonneg_right h1 hph.le
        have hiqC : (i : ℤ) < q + C := by
          by_contra hcon
          push_neg at hcon
          have hc2 : ((q : ℚ) + (C : ℚ)) * (s.itemMin + s.padding) ≤
              (i : ℚ) * (s.itemMin + s.padding) := by
            have : ((q : ℚ) + (C : ℚ)) ≤ (i : ℚ) := by exact_mod_cast hcon
            exact mul_le_mul_of_nonneg_right this hph.le
          nlinarith
        omega
    · exfalso
      push_neg at hcl
      have hiq : (i : ℤ) + 1 ≤ q := by omega
      have hc2 : ((i : ℚ) + 1) * (s.itemMin + s.padding) ≤
          (q : ℚ) * (s.itemMin + s.padding) := by
        have : ((i : ℚ) + 1) ≤ (q : ℚ) := by exact_mod_cast hiq
        exact mul_le_mul_of_nonneg_right this hph.le
      nlinarith
  · rw [if_neg hu] at hlt hgt
    have hveq : visibleItemHeights s s.itemMin s.length =
        visibleLoop s s.itemMin s.length 0 0 false 0 0 [] := by
      unfold visibleItemHeights
      rw [if_neg (not_le.mpr hH), if_neg hu]
    rw [hveq]
    exact visibleLoop_cover s s.itemMin s.length hp hm hh hH s.length 0
      (by omega) false 0 0 []
      (fun _ => ⟨rfl, fun j hj => by
        have hj0 : j = 0 := by omega
        rw [hj0]
        exact ho⟩)
      (fun hcon => by simp at hcon)
      i hi hlt hgt

/-- Witness for C1 on the override path wexC1: row 2 (top 52, height 20)
intersects the window from offset 25 of height 50, and indeed lies in
the returned range. -/
theorem c1_visible_coverage_witness :
    ((2 : ℕ) < wexC1.length ∧
      cumY wexC1 wexC1.itemMin 2 < wexC1.offsetY + wexC1.scrollH ∧
      wexC1.offsetY < cumY wexC1 wexC1.itemMin 2 + rowH wexC1 wexC1.itemMin 2) ∧
    (visibleItemHeights wexC1 wexC1.itemMin wexC1.length).2.2 ≤ ((2 : ℕ) : ℤ) ∧
    ((2 : ℕ) : ℤ) < (visibleItemHeights wexC1 wexC1.itemMin wexC1.length).2.2 +
      (visibleItemHeights wexC1 wexC1.itemMin wexC1.length).1.length := by
  have hset : (if wexC1.itemHeights = []
      then (visibleItemHeights wexC1 wexC1.itemMin wexC1.length).2.1
      else wexC1.offsetY) = wexC1.offsetY := by
    rw [if_neg (by simp [wexC1])]
  refine ⟨⟨by norm_num [wexC1], ?_, ?_⟩,
    c1_visible_coverage wexC1 (by norm_num [wexC1]) (by norm_num [wexC1])
      (by norm_num [wexC1]) (by norm_num [wexC1]) (by norm_num [wexC1]) 2
      (by norm_num [wexC1])
      (by rw [hset]; simp [cumY, rowH, wexC1, List.lookup]; norm_num)
      (by rw [hset]; simp [cumY, rowH, wexC1, List.lookup]; norm_num)⟩
  · simp [cumY, rowH, wexC1, List.lookup]
    norm_num
  · simp [cumY, rowH, wexC1, List.lookup]
    norm_num


/-- Step equation for prefixY. -/
lemma prefixY_succ (s : ListW) :
    ∀ (hs : List ℚ) (j : ℕ), j < hs.length →
    prefixY s hs (j + 1) = prefixY s hs j + hs[j]?.getD 0 + s.padding := by
  intro hs
  induction hs with
  | nil => intro j hj; simp at hj
  | cons h t ih =>
    intro j hj
    cases j with
    | zero => simp [prefixY]
    | succ k =>
      have hk : k < t.length := by simpa using hj
      simp only [prefixY, List.getElem?_cons_succ]
      rw [ih k hk]
      ring

/-- With a CreateItem callback the reconciliation loop produces one cell
per visible height, each mounted at the start offset plus the cumulative
extent of the previous heights. -/
lemma build_cells_spec (s : ListW) (hC : s.hasCreate = true)
    (was : List (ℤ × ℕ)) :
    ∀ (hs : List ℚ) (row : ℤ) (y : ℚ) (pool : List ℕ) (nid obt : ℕ),
    (buildVisible s was row y hs pool nid obt).cells.length = hs.length ∧
    ∀ j : ℕ, j < hs.length → ∃ c h,
      (buildVisible s was row y hs pool nid obt).cells[j]? =
        some (some (c, y + prefixY s hs j, h)) ∧ hs[j]? = some h := by
  intro hs
  induction hs with
  | nil => intro row y pool nid obt; exact ⟨rfl, fun j hj => by simp at hj⟩
  | cons h t ih =>
    intro row y pool nid obt
    have step : ∀ (c : ℕ) (r : BuildRes),
        (r.cells.length = t.length ∧ ∀ j : ℕ, j < t.length → ∃ c2 h2,
          r.cells[j]? = some (some (c2, (y + h + s.padding) + prefixY s t j, h2)) ∧
          t[j]? = some h2) →
        ((some (c, y, h) :: r.cells).length = (h :: t).length ∧
        ∀ j : ℕ, j < (h :: t).length → ∃ c2 h2,
          (some (c, y, h) :: r.cells)[j]? =
            some (some (c2, y + prefixY s (h :: t) j, h2)) ∧
          (h :: t)[j]? = some h2) := by
      intro c r hr
      obtain ⟨hlen, hget⟩ := hr
      refine ⟨by simp [hlen], fun j hj => ?_⟩
      cases j with
      | zero => exact ⟨c, h, by simp [prefixY], by simp⟩
      | succ k =>
        have hk : k < t.length := by simpa using hj
        obtain ⟨c2, h2, hc2, ht2⟩ := hget k hk
        refine ⟨c2, h2, ?_, by simpa using ht2⟩
        have hpos : (y + h + s.padding) + prefixY s t k =
            y + prefixY s (h :: t) (k + 1) := by
          simp [prefixY]
          ring
        rw [List.getElem?_cons_succ, hc2, hpos]
    simp only [buildVisible]
    cases hlk : was.lookup row with
    | some c =>
      simp only []
      exact step c _ (ih (row + 1) (y + h + s.padding) pool nid obt)
    | none =>
      cases pool with
      | cons c ps =>
        simp only []
        exact step c _ (ih (row + 1) (y + h + s.padding) ps nid (obt + 1))
      | nil =>
        rw [if_pos hC]
        exact step nid _ (ih (row + 1) (y + h + s.padding) [] (nid + 1) obt)


/-- The separator positioning loop keeps the list length. -/
lemma positionSeps_length (s : ListW) (ch : List CellInfo) :
    ∀ (l : List SepState) (i : ℕ), (positionSeps s ch i l).length = l.length := by
  intro l
  induction l with
  | nil => intro i; rfl
  | cons sp rest ih => intro i; simp [positionSeps, ih]

/-- Entry j of the positioned separator list: untouched at index 0 or
without a matching child, otherwise moved under the child at the same
index. -/
lemma positionSeps_get (s : ListW) (ch : List CellInfo) :
    ∀ (l : List SepState) (i j : ℕ),
    (positionSeps s ch i l)[j]? = (l[j]?).map (fun sp =>
      if i + j = 0 then sp
      else match ch[i + j]? with
        | some c =>
          { y := cellY c - (s.padding + s.sepThickness) / 2,
            w := s.width, h := s.sepThickness, shown := true }
        | none => sp) := by
  intro l
  induction l with
  | nil => intro i j; simp [positionSeps]
  | cons sp rest ih =>
    intro i j
    cases j with
    | zero => simp [positionSeps]
    | succ k =>
      simp only [positionSeps, List.getElem?_cons_succ]
      rw [ih (i + 1) k]
      have heq : i + 1 + k = i + (k + 1) := by omega
      rw [heq]

/-- C4 (amended): after a completed reconciliation pass the layout
maintains exactly as many separator objects as visible rows when more
than one row is visible (one more than the claimed row count minus one;
the separator at index 0 is never positioned or shown by the loop) and
none otherwise; every separator with index at least 1 is positioned
between its two adjacent rows with its centre at the midpoint of the
inter-row gap, sized to the list width and separator thickness, and
shown. -/
theorem c4_separators (s : ListW) (st : LayoutState) (hC : s.hasCreate = true)
    (hna : ¬((visibleItemHeights s s.itemMin s.length).1.length = 0 ∧
      0 < s.length)) :
    (updateList s st).separators.length =
      (if 1 < (updateList s st).children.length
       then (updateList s st).children.length else 0) ∧
    ∀ j : ℕ, 0 < j → j < (updateList s st).children.length →
      ∃ sp cp cc, (updateList s st).separators[j]? = some sp ∧
        (updateList s st).children[j - 1]? = some (some cp) ∧
        (updateList s st).children[j]? = some (some cc) ∧
        sp.y + s.sepThickness / 2 = ((cp.2.1 + cp.2.2) + cc.2.1) / 2 ∧
        sp.w = s.width ∧ sp.h = s.sepThickness ∧ sp.shown = true := by
  unfold updateList
  rw [if_neg hna]
  dsimp only
  set r := visibleItemHeights s s.itemMin s.length with hrd
  set b := buildVisible s st.visible r.2.2 r.2.1 r.1 st.pool st.nextId st.obtained
    with hbd
  obtain ⟨hclen, hcget⟩ := build_cells_spec s hC st.visible r.1 r.2.2 r.2.1
    st.pool st.nextId st.obtained
  rw [← hbd] at hclen hcget
  unfold updateSeparators
  dsimp only
  set n := b.cells.length with hnd
  by_cases hn : 1 < n
  · rw [if_pos hn]
    have hlen1 : (if n < st.separators.length
        then st.separators.take n
        else st.separators ++
          List.replicate (n - st.separators.length) newSep).length = n := by
      split_ifs with hc
      · simp
        omega
      · simp
        omega
    constructor
    · rw [positionSeps_length, hlen1, if_pos hn]
    · intro j hj0 hjn
      have hj1 : j - 1 < r.1.length := by omega
      have hjr : j < r.1.length := by rw [← hclen]; exact hjn
      obtain ⟨c1, h1, hc1, hh1⟩ := hcget (j - 1) hj1
      obtain ⟨c2, h2, hc2, hh2⟩ := hcget j hjr
      have hjl : j < (if n < st.separators.length
          then st.separators.take n
          else st.separators ++
            List.replicate (n - st.separators.length) newSep).length := by
        rw [hlen1]; exact hjn
      have hsep : (positionSeps s b.cells 0 (if n < st.separators.length
          then st.separators.take n
          else st.separators ++
            List.replicate (n - st.separators.length) newSep))[j]? =
          some
          { y := cellY (some (c2, r.2.1 + prefixY s r.1 j, h2)) -
              (s.padding + s.sepThickness) / 2,
            w := s.width, h := s.sepThickness, shown := true } := by
        rw [positionSeps_get, List.getElem?_eq_getElem hjl]
        simp only [Option.map_some', Nat.zero_add]
        rw [if_neg (by omega : ¬ j = 0), hc2]
      refine ⟨_, (c1, r.2.1 + prefixY s r.1 (j - 1), h1),
        (c2, r.2.1 + prefixY s r.1 j, h2), hsep, hc1, hc2, ?_, rfl, rfl, rfl⟩
      have hpj : prefixY s r.1 ((j - 1) + 1) =
          prefixY s r.1 (j - 1) + h1 + s.padding := by
        rw [prefixY_succ s r.1 (j - 1) hj1]
        rw [show r.1[j - 1]?.getD 0 = h1 from by rw [hh1]; rfl]
      have hj1e : (j - 1) + 1 = j := by omega
      rw [hj1e] at hpj
      dsimp [cellY]
      rw [hpj]
      ring
  · rw [if_neg hn]
    constructor
    · rw [positionSeps_length]
      simp [if_neg hn]
    · intro j hj0 hjn
      omega


/-- Witness for C4 at cexC4: two visible rows give two separators and
the separator at index 1 is centred in the gap. -/
theorem c4_separators_witness :
    (updateList cexC4 layoutState0).separators.length =
      (if 1 < (updateList cexC4 layoutState0).children.length
       then (updateList cexC4 layoutState0).children.length else 0) ∧
    ∀ j : ℕ, 0 < j → j < (updateList cexC4 layoutState0).children.length →
      ∃ sp cp cc, (updateList cexC4 layoutState0).separators[j]? = some sp ∧
        (updateList cexC4 layoutState0).children[j - 1]? = some (some cp) ∧
        (updateList cexC4 layoutState0).children[j]? = some (some cc) ∧
        sp.y + cexC4.sepThickness / 2 = ((cp.2.1 + cp.2.2) + cc.2.1) / 2 ∧
        sp.w = cexC4.width ∧ sp.h = cexC4.sepThickness ∧ sp.shown = true := by
  have hc : ⌈(23 : ℚ) / 21⌉ = 2 := by norm_num [Int.ceil_eq_iff]
  have hv : (visibleItemHeights cexC4 cexC4.itemMin cexC4.length).1.length = 2 := by
    norm_num [visibleItemHeights, cexC4, hc]
    rfl
  exact c4_separators cexC4 layoutState0 rfl (by simp [hv])

/-- Association lookup at the head key. -/
lemma lookup_cons_self {k : ℤ} {v : ℕ} {rest : List (ℤ × ℕ)} :
    List.lookup k ((k, v) :: rest) = some v := by
  simp [List.lookup]

/-- Association lookup skips a non-matching head. -/
lemma lookup_cons_ne {a k : ℤ} {v : ℕ} {rest : List (ℤ × ℕ)} (h : a ≠ k) :
    List.lookup a ((k, v) :: rest) = List.lookup a rest := by
  have hb : (a == k) = false := beq_eq_false_iff_ne.mpr h
  simp [List.lookup, hb]

/-- A member key is found by lookup. -/
lemma lookup_isSome_of_mem {l : List (ℤ × ℕ)} {k : ℤ} {v : ℕ}
    (h : (k, v) ∈ l) : (l.lookup k).isSome := by
  induction l with
  | nil => simp at h
  | cons p rest ih =>
    rcases List.mem_cons.mp h with h1 | h1
    · rw [← h1, lookup_cons_self]
      rfl
    · by_cases he : k = p.1
      · cases p
        subst he
        rw [lookup_cons_self]
        rfl
      · cases p
        rw [lookup_cons_ne he]
        exact ih h1

/-- The release loop releases nothing when every previously mounted
index is still visible. -/
lemma releaseDropped_all_present (newVis : List (ℤ × ℕ)) :
    ∀ (was : List (ℤ × ℕ)) (pool : List ℕ) (rel : ℕ),
    (∀ e ∈ was, (newVis.lookup e.1).isSome) →
    releaseDropped newVis was pool rel = (pool, rel) := by
  intro was
  induction was with
  | nil => intro pool rel _; rfl
  | cons e rest ih =>
    intro pool rel hall
    cases e
    rw [releaseDropped, if_pos (hall _ (List.mem_cons_self _ _))]
    exact ih pool rel (fun e he => hall e (List.mem_cons_of_mem _ he))

/-- Rebuilding the visible range against a mounted map that already
answers every row of the range reproduces the same mounted map and cells
and leaves the pool, the id supply and the obtained counter untouched. -/
lemma build_reuse (s : ListW) (hC : s.hasCreate = true) (was : List (ℤ × ℕ)) :
    ∀ (hs : List ℚ) (row : ℤ) (y : ℚ) (pool : List ℕ) (nid obt : ℕ)
      (W : List (ℤ × ℕ)),
    (∀ j : ℕ, j < hs.length →
      W.lookup (row + (j : ℤ)) =
        (buildVisible s was row y hs pool nid obt).vis.lookup (row + (j : ℤ))) →
    ∀ (P : List ℕ) (N O : ℕ),
    buildVisible s W row y hs P N O =
      { vis := (buildVisible s was row y hs pool nid obt).vis,
        cells := (buildVisible s was row y hs pool nid obt).cells,
        pool := P, nextId := N, obtained := O } := by
  intro hs
  induction hs with
  | nil => intro row y pool nid obt W _ P N O; rfl
  | cons h t ih =>
    intro row y pool nid obt W hagree P N O
    have h0 := hagree 0 (by simp)
    norm_num at h0
    have step : ∀ (c : ℕ) (pool2 : List ℕ) (nid2 obt2 : ℕ) (y2 : ℚ),
        buildVisible s was row y (h :: t) pool nid obt =
          { vis := (row, c) ::
              (buildVisible s was (row + 1) y2 t pool2 nid2 obt2).vis,
            cells := some (c, y, h) ::
              (buildVisible s was (row + 1) y2 t pool2 nid2 obt2).cells,
            pool := (buildVisible s was (row + 1) y2 t pool2 nid2 obt2).pool,
            nextId := (buildVisible s was (row + 1) y2 t pool2 nid2 obt2).nextId,
            obtained := (buildVisible s was (row + 1) y2 t pool2 nid2 obt2).obtained } →
        y2 = y + h + s.padding →
        buildVisible s W row y (h :: t) P N O =
          { vis := (buildVisible s was row y (h :: t) pool nid obt).vis,
            cells := (buildVisible s was row y (h :: t) pool nid obt).cells,
            pool := P, nextId := N, obtained := O } := by
      intro c pool2 nid2 obt2 y2 hv1 hy2
      subst hy2
      rw [hv1] at h0
      rw [lookup_cons_self] at h0
      have hagree2 : ∀ j : ℕ, j < t.length →
          W.lookup ((row + 1) + (j : ℤ)) =
            (buildVisible s was (row + 1) (y + h + s.padding) t pool2 nid2
              obt2).vis.lookup ((row + 1) + (j : ℤ)) := by
        intro j hj
        have hstep := hagree (j + 1) (by simpa using hj)
        rw [hv1] at hstep
        have hne : row + ((j : ℕ) + 1 : ℤ) ≠ row := by omega
        push_cast at hstep
        rw [lookup_cons_ne (by omega : row + ((j : ℤ) + 1) ≠ row)] at hstep
        have harr : (row + 1) + (j : ℤ) = row + ((j : ℤ) + 1) := by ring
        rw [harr]
        exact hstep
      have hrec := ih (row + 1) (y + h + s.padding) pool2 nid2 obt2 W hagree2 P N O
      rw [hv1]
      simp only [buildVisible]
      rw [h0]
      simp only []
      rw [hrec]
    cases hlk : was.lookup row with
    | some c =>
      refine step c pool nid obt (y + h + s.padding) ?_ rfl
      simp only [buildVisible]
      rw [hlk]
    | none =>
      cases hpool : pool with
      | cons c ps =>
        rw [hpool] at step
        refine step c ps nid (obt + 1) (y + h + s.padding) ?_ rfl
        simp only [buildVisible]
        rw [hlk]
      | nil =>
        rw [hpool] at step
        refine step nid [] (nid + 1) obt (y + h + s.padding) ?_ rfl
        simp only [buildVisible]
        rw [hlk, if_pos hC]


/-- Unfolded form of a non-aborting updateList pass. -/
lemma updateList_eq (s : ListW) (st : LayoutState)
    (hna : ¬((visibleItemHeights s s.itemMin s.length).1.length = 0 ∧
      0 < s.length)) :
    updateList s st =
      { visible := (buildVisible s st.visible
          (visibleItemHeights s s.itemMin s.length).2.2
          (visibleItemHeights s s.itemMin s.length).2.1
          (visibleItemHeights s s.itemMin s.length).1
          st.pool st.nextId st.obtained).vis,
        pool := (releaseDropped (buildVisible s st.visible
          (visibleItemHeights s s.itemMin s.length).2.2
          (visibleItemHeights s s.itemMin s.length).2.1
          (visibleItemHeights s s.itemMin s.length).1
          st.pool st.nextId st.obtained).vis st.visible
          (buildVisible s st.visible
            (visibleItemHeights s s.itemMin s.length).2.2
            (visibleItemHeights s s.itemMin s.length).2.1
            (visibleItemHeights s s.itemMin s.length).1
            st.pool st.nextId st.obtained).pool st.released).1,
        nextId := (buildVisible s st.visible
          (visibleItemHeights s s.itemMin s.length).2.2
          (visibleItemHeights s s.itemMin s.length).2.1
          (visibleItemHeights s s.itemMin s.length).1
          st.pool st.nextId st.obtained).nextId,
        children := (buildVisible s st.visible
          (visibleItemHeights s s.itemMin s.length).2.2
          (visibleItemHeights s s.itemMin s.length).2.1
          (visibleItemHeights s s.itemMin s.length).1
          st.pool st.nextId st.obtained).cells,
        separators := updateSeparators s (buildVisible s st.visible
          (visibleItemHeights s s.itemMin s.length).2.2
          (visibleItemHeights s s.itemMin s.length).2.1
          (visibleItemHeights s s.itemMin s.length).1
          st.pool st.nextId st.obtained).cells st.separators,
        content := ((buildVisible s st.visible
          (visibleItemHeights s s.itemMin s.length).2.2
          (visibleItemHeights s s.itemMin s.length).2.1
          (visibleItemHeights s s.itemMin s.length).1
          st.pool st.nextId st.obtained).cells,
          updateSeparators s (buildVisible s st.visible
            (visibleItemHeights s s.itemMin s.length).2.2
            (visibleItemHeights s s.itemMin s.length).2.1
            (visibleItemHeights s s.itemMin s.length).1
            st.pool st.nextId st.obtained).cells st.separators),
        obtained := (buildVisible s st.visible
          (visibleItemHeights s s.itemMin s.length).2.2
          (visibleItemHeights s s.itemMin s.length).2.1
          (visibleItemHeights s s.itemMin s.length).1
          st.pool st.nextId st.obtained).obtained,
        released := (releaseDropped (buildVisible s st.visible
          (visibleItemHeights s s.itemMin s.length).2.2
          (visibleItemHeights s s.itemMin s.length).2.1
          (visibleItemHeights s s.itemMin s.length).1
          st.pool st.nextId st.obtained).vis st.visible
          (buildVisible s st.visible
            (visibleItemHeights s s.itemMin s.length).2.2
            (visibleItemHeights s s.itemMin s.length).2.1
            (visibleItemHeights s s.itemMin s.length).1
            st.pool st.nextId st.obtained).pool st.released).2 } := by
  unfold updateList
  rw [if_neg hna]

/-- C9: reconciliation is idempotent: a second updateList pass with no
intervening state change keeps the same index-to-view mounted map,
children and id supply, and neither obtains a view from the pool nor
releases one to it (the pool and both churn counters are unchanged). -/
theorem c9_reconcile_idempotent (s : ListW) (st : LayoutState) (hC : s.hasCreate = true) :
    (updateList s (updateList s st)).visible = (updateList s st).visible ∧
    (updateList s (updateList s st)).pool = (updateList s st).pool ∧
    (updateList s (updateList s st)).children = (updateList s st).children ∧
    (updateList s (updateList s st)).nextId = (updateList s st).nextId ∧
    (updateList s (updateList s st)).obtained = (updateList s st).obtained ∧
    (updateList s (updateList s st)).released = (updateList s st).released := by
  by_cases hab : ((visibleItemHeights s s.itemMin s.length).1.length = 0 ∧
      0 < s.length)
  · have h1 : updateList s st = st := by
      unfold updateList
      rw [if_pos hab]
    rw [h1]
    rw [h1]
    exact ⟨rfl, rfl, rfl, rfl, rfl, rfl⟩
  · have h1 := updateList_eq s st hab
    set b := buildVisible s st.visible
      (visibleItemHeights s s.itemMin s.length).2.2
      (visibleItemHeights s s.itemMin s.length).2.1
      (visibleItemHeights s s.itemMin s.length).1
      st.pool st.nextId st.obtained with hbd
    have h2 := updateList_eq s (updateList s st) hab
    rw [h1] at h2
    dsimp only at h2
    have hb2 := build_reuse s hC st.visible
      (visibleItemHeights s s.itemMin s.length).1
      (visibleItemHeights s s.itemMin s.length).2.2
      (visibleItemHeights s s.itemMin s.length).2.1
      st.pool st.nextId st.obtained b.vis
      (fun j _ => by rw [hbd])
      (releaseDropped b.vis st.visible b.pool st.released).1
      b.nextId b.obtained
    rw [← hbd] at hb2
    rw [hb2] at h2
    dsimp only at h2
    have hall : ∀ e ∈ b.vis, ((b.vis).lookup e.1).isSome := by
      intro e he
      cases e
      exact lookup_isSome_of_mem he
    have hrel := releaseDropped_all_present b.vis b.vis
      (releaseDropped b.vis st.visible b.pool st.released).1
      (releaseDropped b.vis st.visible b.pool st.released).2 hall
    rw [hrel] at h2
    rw [h1, h2]
    exact ⟨rfl, rfl, rfl, rfl, rfl, rfl⟩


/-- Witness for C9 at cexC4: a second pass over the two mounted rows
reuses them with no pool churn. -/
theorem c9_reconcile_idempotent_witness :
    cexC4.hasCreate = true ∧
    ((updateList cexC4 (updateList cexC4 layoutState0)).visible =
      (updateList cexC4 layoutState0).visible ∧
    (updateList cexC4 (updateList cexC4 layoutState0)).pool =
      (updateList cexC4 layoutState0).pool ∧
    (updateList cexC4 (updateList cexC4 layoutState0)).children =
      (updateList cexC4 layoutState0).children ∧
    (updateList cexC4 (updateList cexC4 layoutState0)).nextId =
      (updateList cexC4 layoutState0).nextId ∧
    (updateList cexC4 (updateList cexC4 layoutState0)).obtained =
      (updateList cexC4 layoutState0).obtained ∧
    (updateList cexC4 (updateList cexC4 layoutState0)).released =
      (updateList cexC4 layoutState0).released) :=
  ⟨rfl, c9_reconcile_idempotent cexC4 layoutState0 rfl⟩
